import Mathlib

/-!
Shallow embedding of the WDL generator module of the cwl2wdl repository
(src/cwl2wdl/generators.py) and verification of its specification.

Conventions of the embedding:
* Python strings are Lean `String`s; Python `None` for an optional field is
  `Option.none`.
* Integer positions are `Option Int`.
* Python `str.replace` (replace all non-overlapping occurrences, scanning
  left to right) is embedded as `strReplace` below, working on `List Char`.
* `re.sub(task_id + "\x5c.", "", s)` is embedded as `reSubTaskId`: the
  characters of `task_id` are matched literally except for `.` which, as a
  regex metacharacter, matches any single character other than a newline.
  (Other regex metacharacters are not modelled; the task ids considered here
  consist of word characters and dots, for which this embedding is exact.)
* `re.sub("\x5cs+runtime \x7b\x5cs+\x7d", "", s)` is embedded as
  `reSubEmptyRuntime`; since the pattern pieces `\x5cs+` are followed by
  non-whitespace literals, the greedy match is equivalent to taking maximal
  whitespace runs, which is what the embedding does.
* Python stable `sorted` with key `(x is None, x)` is embedded as the stable
  insertion sort `pySorted` over the comparison `cmdKeyLe`.
-/

namespace Cwl2Wdl

/-! ## String machinery -/

/-- Match a literal character sequence at the front of `s`; on success return
the remainder of `s`. -/
def dropLiteral : List Char → List Char → Option (List Char)
  | [], s => some s
  | _ :: _, [] => none
  | c :: cs, d :: ds => if c = d then dropLiteral cs ds else none

theorem dropLiteral_length {pat s r : List Char} (h : dropLiteral pat s = some r) :
    r.length + pat.length = s.length := by
  induction pat generalizing s with
  | nil =>
    simp [dropLiteral] at h
    simp [h]
  | cons c cs ih =>
    cases s with
    | nil => simp [dropLiteral] at h
    | cons d ds =>
      by_cases hc : c = d
      · simp [dropLiteral, hc] at h
        have := ih h
        simp [List.length_cons]
        omega
      · simp [dropLiteral, hc] at h

/-- One pass of Python `str.replace`: replace each leftmost non-overlapping
occurrence of the non-empty pattern `p :: ps` by `repl`.  The scan consumes
at least one character per step, so it is run with the length of the list
as fuel; the fuel makes the recursion structural so that the kernel can
evaluate it. -/
def replaceAux (p : Char) (ps repl : List Char) : Nat → List Char → List Char
  | _, [] => []
  | 0, s => s
  | fuel + 1, c :: cs =>
    match dropLiteral (p :: ps) (c :: cs) with
    | some rest => repl ++ replaceAux p ps repl fuel rest
    | none => c :: replaceAux p ps repl fuel cs

/-- Embedding of Python `str.replace` (for a non-empty pattern; the module
only calls it with non-empty patterns). -/
def strReplace (pat repl s : String) : String :=
  match pat.toList with
  | [] => s
  | p :: ps => String.mk (replaceAux p ps repl.toList s.toList.length s.toList)

/-- Embedding of Python `str.startswith` / the `%s` prefix test. -/
def strStartsWith (pat s : String) : Bool :=
  (dropLiteral pat.toList s.toList).isSome

/-- Split a character list at every occurrence of the separator character,
keeping empty groups (the behaviour of Python `str.split` with a one
character separator, which is how the module always calls it). -/
def splitChar (sep : Char) : List Char → List (List Char)
  | [] => [[]]
  | c :: cs =>
    let r := splitChar sep cs
    if c = sep then [] :: r
    else
      match r with
      | [] => [[c]]
      | g :: gs => (c :: g) :: gs

/-- Embedding of Python `s.split(sep)` for a one-character separator. -/
def pySplit (sep : Char) (s : String) : List String :=
  (splitChar sep s.toList).map String.mk

/-! ## Data model (descriptor entities handed to the generators) -/

/-- Command argument descriptor.  The Python attribute `prefix` is a Lean
keyword and is called `pfx` here. -/
structure Argument where
  position : Option Int
  pfx : Option String
  separate : Bool
  value : Option String
deriving DecidableEq, Repr

/-- Command input descriptor. -/
structure CommandInput where
  name : String
  variable_type : String
  position : Option Int
  pfx : Option String
  separate : Bool
  is_required : Bool
  default : Option String
  separator : String
deriving DecidableEq, Repr

/-- Command descriptor. -/
structure Command where
  baseCommand : String
  arguments : List Argument
  inputs : List CommandInput
deriving DecidableEq, Repr

/-- Payload of a requirement: either a plain string or, for environment
variable requirements, a list of name/value pairs. -/
inductive ReqValue
  | str (s : String)
  | envList (l : List (String × String))
deriving DecidableEq, Repr

structure Requirement where
  requirement_type : Option String
  value : Option ReqValue
deriving DecidableEq, Repr

structure StructDefinition where
  name : String
  fields : List (String × String)
deriving DecidableEq, Repr

/-- Typed variable of a task or workflow input section. -/
structure TaskVar where
  name : String
  variable_type : String
  is_required : Bool
deriving DecidableEq, Repr

structure TaskOutput where
  name : String
  variable_type : String
  output : String
deriving DecidableEq, Repr

/-- A task descriptor as consumed by `WdlTaskGenerator.__init__`. -/
structure Task where
  name : String
  inputs : List TaskVar
  command : Command
  outputs : List TaskOutput
  requirements : List Requirement
  stdin : Option String
  stdout : Option String
deriving DecidableEq, Repr

/-- State of a `WdlTaskGenerator` instance after `__init__`. -/
structure WdlTaskGenerator where
  name : String
  inputs : List TaskVar
  command : Command
  outputs : List TaskOutput
  requirements : List Requirement
  stdin : Option String
  structs : List StructDefinition
  stdout : Option String
deriving DecidableEq, Repr

/-- `WdlTaskGenerator.__init__`. -/
def WdlTaskGenerator.ofTask (task : Task) (structs : List StructDefinition) :
    WdlTaskGenerator :=
  { name := task.name, inputs := task.inputs, command := task.command
    outputs := task.outputs, requirements := task.requirements
    stdin := task.stdin, structs := structs, stdout := task.stdout }

/-! ## WdlTaskGenerator: command synthesis -/

/-- `WdlTaskGenerator._is_struct`: strip `Array[`/`]` from the type and test
membership among the known struct names. -/
def is_struct (structs : List StructDefinition) (vtype : String) : Bool :=
  (structs.map (fun x => x.name)).contains
    (strReplace "]" "" (strReplace "Array[" "" vtype))

/-- Rendering of one `Argument` (the first loop of `__format_command`). -/
def formatArg (arg : Argument) : String :=
  let value := arg.value.getD ""
  match arg.pfx with
  | some p => if arg.separate then p ++ " " ++ value else p ++ value
  | none => "" ++ value

/-- Rendering of one `CommandInput` (the second loop of `__format_command`).
Returns `none` when the loop body executes `continue` without appending,
otherwise the appended `(position, part)` pair.  The branches appear in
source order: boolean elision, struct serialization, stdout exclusion,
standard case. -/
def renderInput (structs : List StructDefinition) (stdout : Option String)
    (ci : CommandInput) : Option (Option Int × String) :=
  if ci.variable_type = "Boolean" ∧ (ci.default = some "False" ∨ ci.pfx = none) then
    none
  else if is_struct structs ci.variable_type then
    some (ci.position, "$\x7bwrite_struct(" ++ ci.name ++ ")\x7d")
  else if stdout = some ci.name then
    none
  else
    let sep :=
      if strStartsWith "Array" ci.variable_type then
        "sep=\x27" ++ ci.separator ++ "\x27 "
      else ""
    let dflt :=
      match ci.default with
      | some d => "default=\x27" ++ d ++ "\x27 "
      | none => ""
    let nameExpr := sep ++ dflt ++ ci.name
    let part :=
      match ci.pfx with
      | none => "$\x7b" ++ nameExpr ++ "\x7d"
      | some p =>
        if ci.is_required then
          if ci.separate then p ++ " $\x7b" ++ nameExpr ++ "\x7d"
          else p ++ "$\x7b" ++ nameExpr ++ "\x7d"
        else "$\x7b" ++ p ++ " + " ++ nameExpr ++ "\x7d"
    some (ci.position, part)

/-- The zipped `command_position`/`command_parts` lists built by
`__format_command` before sorting.  The seed entry is the base command at the
integer position `0` (the Python literal `[0]`). -/
def collectPairs (g : WdlTaskGenerator) : List (Option Int × String) :=
  (some 0, g.command.baseCommand)
    :: (g.command.arguments.map (fun a => (a.position, formatArg a))
        ++ g.command.inputs.filterMap (renderInput g.structs g.stdout))

/-- The Python sort key comparison: key of `x` is `(x is None, x)`,
compared lexicographically with `False < True`. -/
def cmdKeyLe : Option Int → Option Int → Bool
  | some a, some b => a ≤ b
  | some _, none => true
  | none, some _ => false
  | none, none => true

/-- Stable insertion used by `pySorted`: place `x` before the first element
whose key is not smaller. -/
def insertPart (x : Option Int × String) :
    List (Option Int × String) → List (Option Int × String)
  | [] => [x]
  | y :: ys => if cmdKeyLe x.1 y.1 then x :: y :: ys else y :: insertPart x ys

/-- Embedding of the stable Python `sorted` with key `(x is None, x)`
(insertion sort is a stable sort, so it computes the same list). -/
def pySorted : List (Option Int × String) → List (Option Int × String)
  | [] => []
  | x :: xs => insertPart x (pySorted xs)

/-- The `(position, part)` pairs in their final order (lines 133-135). -/
def ordered_pairs (g : WdlTaskGenerator) : List (Option Int × String) :=
  pySorted (collectPairs g)

/-- `ordered_command_parts` right after the sort. -/
def ordered_command_parts (g : WdlTaskGenerator) : List String :=
  (ordered_pairs g).map (fun p => p.2)

/-- Extraction of the name/value pairs of an environment variable
requirement payload. -/
def envPairs : Option ReqValue → List (String × String)
  | some (ReqValue.envList l) => l
  | _ => []

/-- The env-var loop of `__format_command`: each matching requirement is
inserted at index 0, so the last processed one ends up first. -/
def envInsert (reqs : List Requirement) (parts : List String) : List String :=
  reqs.foldl
    (fun acc req =>
      if req.requirement_type = some "envVar" then
        (" ".intercalate
          ((envPairs req.value).map
            (fun ev => ev.1 ++ "=\x27" ++ ev.2 ++ "\x27"))) :: acc
      else acc)
    parts

/-- The final token list of `__format_command`: env-var tokens at the front,
then the sorted parts, then the stdout redirection when `stdout` is set. -/
def final_command_parts (g : WdlTaskGenerator) : List String :=
  let parts := envInsert g.requirements (ordered_command_parts g)
  match g.stdout with
  | some s => parts ++ ["> $\x7b" ++ s ++ "\x7d"]
  | none => parts

/-- `WdlTaskGenerator.__format_command`: join all tokens with a backslash,
a newline and the eight-space command-block indentation. -/
def format_command (g : WdlTaskGenerator) : String :=
  " \\\n        ".intercalate (final_command_parts g)

/-! ## WdlTaskGenerator: surrounding sections and task text -/

/-- `WdlTaskGenerator.__format_inputs` (`re.sub("($)", "?", t)` appends a
question mark at the end of the type). -/
def format_inputs (g : WdlTaskGenerator) : String :=
  "\n    ".intercalate
    (g.inputs.map (fun var =>
      (if var.is_required then var.variable_type else var.variable_type ++ "?")
        ++ " " ++ var.name))

/-- `WdlTaskGenerator.__format_outputs`. -/
def format_outputs (g : WdlTaskGenerator) : String :=
  "\n        ".intercalate
    (g.outputs.map (fun var =>
      var.variable_type ++ " " ++ var.name ++ " = " ++ var.output))

/-- Python `str()` of a requirement payload (a plain string renders as
itself; a list of string pairs renders as its repr). -/
def pyStrReqValue : ReqValue → String
  | ReqValue.str s => s
  | ReqValue.envList l =>
    "[" ++ ", ".intercalate
      (l.map (fun p => "(\x27" ++ p.1 ++ "\x27, \x27" ++ p.2 ++ "\x27)")) ++ "]"

/-- `WdlTaskGenerator.__format_runtime`. -/
def format_runtime (g : WdlTaskGenerator) : String :=
  "\n        ".intercalate
    (g.requirements.filterMap (fun req =>
      match req.requirement_type, req.value with
      | none, _ => none
      | _, none => none
      | some t, some v =>
        if t = "envVar" then none
        else some (t ++ ": \x27" ++ pyStrReqValue v ++ "\x27")))

/-- The task template (lines 13-29), filled. -/
def task_template (name inputs cmd outputs runtime : String) : String :=
  "\ntask " ++ name ++ " \x7b\n    " ++ inputs
    ++ "\n\n    command \x7b\n        " ++ cmd
    ++ "\n    \x7d\n\n    output \x7b\n        " ++ outputs
    ++ "\n    \x7d\n\n    runtime \x7b\n        " ++ runtime
    ++ "\n    \x7d\n\x7d\n"

/-- Python `\x5cs` whitespace class (ASCII part). -/
def isPySpace (c : Char) : Bool :=
  c = ' ' ∨ c = '\t' ∨ c = '\n' ∨ c = '\x0d' ∨ c = '\x0b' ∨ c = '\x0c'

theorem length_dropWhile_le {α : Type} (p : α → Bool) (l : List α) :
    (List.dropWhile p l).length ≤ l.length := by
  induction l with
  | nil => simp [List.dropWhile]
  | cons a l ih =>
    by_cases hp : p a <;> simp [List.dropWhile_cons, hp] <;> omega

/-- The literal part `runtime \x7b` of the empty-runtime regex. -/
def runtimeLit : List Char := ['r', 'u', 'n', 't', 'i', 'm', 'e', ' ', '\x7b']

/-- Try to match the regex `\x5cs+runtime \x7b\x5cs+\x7d` at the head of
the list; on success return the remainder.  Both `\x5cs+` occurrences are
followed by a non-whitespace literal, so greedy matching is equivalent to
taking the maximal whitespace run. -/
def matchEmptyRuntime : List Char → Option (List Char)
  | [] => none
  | c :: cs =>
    if isPySpace c then
      match dropLiteral runtimeLit (List.dropWhile isPySpace (c :: cs)) with
      | none => none
      | some r2 =>
        match r2 with
        | [] => none
        | d :: ds =>
          if isPySpace d then
            match List.dropWhile isPySpace (d :: ds) with
            | '\x7d' :: r4 => some r4
            | _ => none
          else none
    else none

theorem matchEmptyRuntime_length {s r : List Char}
    (h : matchEmptyRuntime s = some r) : r.length < s.length := by
  cases s with
  | nil => simp [matchEmptyRuntime] at h
  | cons c cs =>
    simp only [matchEmptyRuntime] at h
    split at h
    · split at h
      · exact absurd h (by simp)
      · rename_i r2 hdl
        match r2, hdl with
        | [], hdl => exact absurd h (by simp)
        | d :: ds, hdl =>
          simp only at h
          split at h
          · split at h
            · rename_i r4 hdw
              have h1 : (List.dropWhile isPySpace (c :: cs)).length ≤ cs.length + 1 :=
                length_dropWhile_le _ _
              have h2 := dropLiteral_length hdl
              have h3 : (List.dropWhile isPySpace (d :: ds)).length ≤ ds.length + 1 :=
                length_dropWhile_le _ _
              have h4 := congrArg List.length hdw
              simp at h4
              simp at h2
              cases h
              simp [runtimeLit] at h2
              simp
              omega
            · exact absurd h (by simp)
          · exact absurd h (by simp)
    · exact absurd h (by simp)

/-- The fuelled scanner of `reSubEmptyRuntime`; every step consumes at
least one character (`matchEmptyRuntime_length`), so the length of the
list is sufficient fuel. -/
def reSubEmptyRuntimeAux : Nat → List Char → List Char
  | _, [] => []
  | 0, s => s
  | fuel + 1, c :: cs =>
    match matchEmptyRuntime (c :: cs) with
    | some rest => reSubEmptyRuntimeAux fuel rest
    | none => c :: reSubEmptyRuntimeAux fuel cs

/-- `re.sub("\x5cs+runtime \x7b\x5cs+\x7d", "", s)`: remove every leftmost
non-overlapping match. -/
def reSubEmptyRuntime (s : List Char) : List Char :=
  reSubEmptyRuntimeAux s.length s

/-- `WdlTaskGenerator.generate_wdl`: fill the task template and, when the
runtime section is empty, remove it with the regex substitution. -/
def generate_wdl (g : WdlTaskGenerator) : String :=
  let wdl := task_template g.name (format_inputs g) (format_command g)
    (format_outputs g) (format_runtime g)
  if format_runtime g = "" then String.mk (reSubEmptyRuntime wdl.toList)
  else wdl

/-! ## WdlWorkflowGenerator: data model -/

/-- One input binding of a workflow step. -/
structure StepInput where
  input_id : String
  value : String
deriving DecidableEq, Repr

/-- A workflow step descriptor.  `prescatter` is an insertion-ordered
mapping from a base record expression to `(new_name, orig_attr, vartype)`
unpack requests. -/
structure WorkflowStep where
  task_id : String
  step_type : String
  task_definition : Option Task
  inputs : List StepInput
  scatter : List (String × String)
  prescatter : List (String × List (String × String × String))
deriving DecidableEq, Repr

structure WorkflowOutput where
  name : String
  variable_type : String
deriving DecidableEq, Repr

structure Workflow where
  name : String
  inputs : List TaskVar
  outputs : List WorkflowOutput
  steps : List WorkflowStep
  subworkflows : List WorkflowStep
  structs : List StructDefinition
deriving DecidableEq, Repr

/-- State of a `WdlWorkflowGenerator` instance: the descriptor fields plus
the three instance accumulators mutated by `__format_steps`. -/
structure WdlWorkflowGenerator where
  name : String
  inputs : List TaskVar
  outputs : List WorkflowOutput
  steps : List WorkflowStep
  subworkflows : List WorkflowStep
  structs : List StructDefinition
  task_ids : List String
  imported_wfs : List String
  prepped_tasks : List String
deriving DecidableEq, Repr

/-- `WdlWorkflowGenerator.__init__`: the accumulators start empty. -/
def WdlWorkflowGenerator.ofWorkflow (wf : Workflow) : WdlWorkflowGenerator :=
  { name := wf.name, inputs := wf.inputs, outputs := wf.outputs
    steps := wf.steps, subworkflows := wf.subworkflows, structs := wf.structs
    task_ids := [], imported_wfs := [], prepped_tasks := [] }

/-! ## WdlWorkflowGenerator: step composition -/

/-- Pattern matching for `re.sub(task_id + "\x5c.", "", ...)`: match the
characters of `task_id` (where `.` matches any character other than a
newline) followed by a literal dot, returning the remainder on success. -/
def matchTaskIdPat : List Char → List Char → Option (List Char)
  | [], s =>
    match s with
    | '.' :: r => some r
    | _ => none
  | _ :: _, [] => none
  | p :: ps, c :: cs =>
    if (p = '.' ∧ c ≠ '\n') ∨ p = c then matchTaskIdPat ps cs else none

theorem matchTaskIdPat_length {tid s r : List Char}
    (h : matchTaskIdPat tid s = some r) : r.length < s.length := by
  induction tid generalizing s with
  | nil =>
    cases s with
    | nil => simp [matchTaskIdPat] at h
    | cons c cs =>
      simp only [matchTaskIdPat] at h
      split at h
      · cases h
        rename_i heq
        cases heq
        simp
      · exact absurd h (by simp)
  | cons p ps ih =>
    match s with
    | [] => simp [matchTaskIdPat] at h
    | c :: cs =>
      simp only [matchTaskIdPat] at h
      split at h
      · have := ih h
        simp
        omega
      · exact absurd h (by simp)

/-- The fuelled scanner of `reSubTaskId`; a match always consumes at least
the final literal dot (`matchTaskIdPat_length`), so the length of the list
is sufficient fuel. -/
def reSubTaskIdAux (tid : List Char) : Nat → List Char → List Char
  | _, [] => []
  | 0, s => s
  | fuel + 1, c :: cs =>
    match matchTaskIdPat tid (c :: cs) with
    | some rest => reSubTaskIdAux tid fuel rest
    | none => c :: reSubTaskIdAux tid fuel cs

/-- `re.sub(task_id + "\x5c.", "", s)`: remove every leftmost
non-overlapping match of the pattern. -/
def reSubTaskId (tid s : List Char) : List Char :=
  reSubTaskIdAux tid s.length s

/-- One binding line of a call block (the loop at lines 255-260): the pad
is ten spaces for every binding after the first. -/
def format_binding (tid : String) (i : Nat) (inp : StepInput) : String :=
  (if i > 0 then "          " else "")
    ++ String.mk (reSubTaskId tid.toList inp.input_id.toList)
    ++ "=" ++ inp.value

/-- The call block of a step with a non-empty binding list (the
`step_template` of lines 249-253, filled). -/
def call_block (step : WorkflowStep) : String :=
  "\n    call " ++ step.task_id ++ " \x7b\n        input: "
    ++ ", \n".intercalate
      ((step.inputs.enum).map (fun p => format_binding step.task_id p.1 p.2))
    ++ "\n    \x7d\n"

/-- `WdlWorkflowGenerator._format_prescatter`. -/
def format_prescatter
    (prescatter : List (String × List (String × String × String))) : String :=
  prescatter.foldl
    (fun out entry =>
      let base_rec := entry.1
      let base_rec_item := strReplace "." "_" base_rec ++ "_item"
      let unpack_attrs := entry.2.map
        (fun a =>
          "  " ++ a.2.2 ++ " " ++ a.1 ++ " = " ++ base_rec_item ++ "." ++ a.2.1)
      out ++ ("\nscatter (" ++ base_rec_item ++ " in " ++ base_rec ++ ") \x7b\n"
        ++ "\n".intercalate unpack_attrs ++ "\n\x7d\n"))
    ""

/-- `WdlWorkflowGenerator._format_scatter`: when the scatter list is
non-empty, indent every line of the body by two spaces and wrap it in a
scatter block whose header joins the pairs. -/
def format_scatter (scatter : List (String × String)) (body : String) : String :=
  if scatter.isEmpty then body
  else
    let parts := (pySplit '\n' body).map (fun l => "  " ++ l)
    let scatter_parts := scatter.map (fun xy => xy.1 ++ " in " ++ xy.2)
    "\n    scatter (" ++ "\n             ".intercalate scatter_parts
      ++ ") \x7b\n" ++ "\n".intercalate parts ++ "\n    \x7d\n"

/-- The text a step contributes to the workflow body (the if/else at lines
248-265): a full call block, preceded by the pre-scatter unpack text, when
there are bindings, and a bare call otherwise; either way the result is
run through `_format_scatter`. -/
def render_call (step : WorkflowStep) : String :=
  if step.inputs.isEmpty then
    format_scatter step.scatter ("call " ++ step.task_id)
  else
    format_scatter step.scatter (format_prescatter step.prescatter ++ call_block step)

/-- The body of the `__format_steps` loop: append to the accumulators of
the generator and emit the text of the step. -/
def process_step (acc : WdlWorkflowGenerator × List String) (step : WorkflowStep) :
    WdlWorkflowGenerator × List String :=
  let g := acc.1
  let g := { g with task_ids := g.task_ids ++ [step.task_id] }
  let g :=
    match step.task_definition with
    | none => g
    | some td =>
      if step.step_type = "task" then
        { g with prepped_tasks :=
            g.prepped_tasks ++ [generate_wdl (WdlTaskGenerator.ofTask td g.structs)] }
      else
        let base := (pySplit '.' step.task_id).getLastD ""
        { g with imported_wfs :=
            g.imported_wfs ++ ["import \x22" ++ base ++ ".wdl\x22 as " ++ base] }
  (g, acc.2 ++ [render_call step])

/-- `WdlWorkflowGenerator.__format_steps`: fold the loop body over
`steps ++ subworkflows`, join the texts, and return the mutated instance. -/
def format_steps (g : WdlWorkflowGenerator) : String × WdlWorkflowGenerator :=
  let r := (g.steps ++ g.subworkflows).foldl process_step (g, [])
  ("\n".intercalate r.2, r.1)

/-! ## WdlWorkflowGenerator: remaining sections and workflow text -/

/-- `WdlWorkflowGenerator.__format_inputs`. -/
def wf_format_inputs (g : WdlWorkflowGenerator) : String :=
  "\n    ".intercalate
    (g.inputs.map (fun var =>
      (if var.is_required then var.variable_type else var.variable_type ++ "?")
        ++ " " ++ var.name))

/-- `WdlWorkflowGenerator.__format_outputs`: with no outputs the Python
method falls through and returns `None`. -/
def wf_format_outputs (g : WdlWorkflowGenerator) : Option String :=
  if g.outputs.length > 0 then
    some ("\n   output \x7b\n     "
      ++ "\n     ".intercalate
        (g.outputs.map (fun outp =>
          outp.variable_type ++ " "
            ++ ((pySplit '.' outp.name).getLastD "") ++ " = " ++ outp.name))
      ++ "\n   \x7d\n")
  else none

/-- `WdlWorkflowGenerator.__format_structs`. -/
def wf_format_structs (g : WdlWorkflowGenerator) : String :=
  let out := g.structs.foldl
    (fun out struct =>
      out ++ ("\nstruct " ++ struct.name ++ " \x7b\n"
        ++ ",\n".intercalate
          (struct.fields.map (fun kv => " " ++ kv.1 ++ ": " ++ kv.2))
        ++ "\n\x7d\n"))
    ""
  if out = "" then out else "\n" ++ out

/-- Python `"%s" % x` renders `None` as the string `None`. -/
def pyFmtOpt : Option String → String
  | some s => s
  | none => "None"

/-- `WdlWorkflowGenerator.generate_wdl`: fill the workflow template (lines
186-196) and return the emitted text along with the mutated instance. -/
def wf_generate_wdl (g : WdlWorkflowGenerator) : String × WdlWorkflowGenerator :=
  let inputs := wf_format_inputs g
  let stepsRes := format_steps g
  let g' := stepsRes.2
  let outputs := wf_format_outputs g
  let structs := wf_format_structs g
  ("\n" ++ "\n".intercalate g'.imported_wfs ++ "\n" ++ structs
      ++ "\n\nworkflow " ++ g.name ++ " \x7b\n    " ++ inputs ++ "\n    "
      ++ stepsRes.1 ++ "\n    " ++ pyFmtOpt outputs ++ "\n\x7d\n"
      ++ "\n".intercalate g'.prepped_tasks ++ "\n",
    g')

/-! ## Properties of the stable position sort -/

theorem cmdKeyLe_total (a b : Option Int) : cmdKeyLe a b = true ∨ cmdKeyLe b a = true := by
  cases a <;> cases b <;> simp [cmdKeyLe] <;> omega

theorem cmdKeyLe_trans {a b c : Option Int} (hab : cmdKeyLe a b = true)
    (hbc : cmdKeyLe b c = true) : cmdKeyLe a c = true := by
  cases a <;> cases b <;> cases c <;> simp_all [cmdKeyLe] <;> omega

theorem mem_insertPart {x y : Option Int × String} {l : List (Option Int × String)} :
    y ∈ insertPart x l ↔ y = x ∨ y ∈ l := by
  induction l with
  | nil => simp [insertPart]
  | cons z zs ih =>
    by_cases h : cmdKeyLe x.1 z.1 <;> simp [insertPart, h, ih] <;> tauto

theorem pairwise_insertPart {x : Option Int × String} {l : List (Option Int × String)}
    (hl : l.Pairwise (fun p q => cmdKeyLe p.1 q.1 = true)) :
    (insertPart x l).Pairwise (fun p q => cmdKeyLe p.1 q.1 = true) := by
  induction l with
  | nil => simp [insertPart]
  | cons z zs ih =>
    rcases List.pairwise_cons.mp hl with ⟨hz, hzs⟩
    by_cases h : cmdKeyLe x.1 z.1 = true
    · rw [insertPart, if_pos h]
      refine List.pairwise_cons.mpr ⟨?_, hl⟩
      intro b hb
      rcases List.mem_cons.mp hb with hb | hb
      · rw [hb]; exact h
      · exact cmdKeyLe_trans h (hz b hb)
    · rw [insertPart, if_neg h]
      refine List.pairwise_cons.mpr ⟨?_, ih hzs⟩
      intro b hb
      rcases mem_insertPart.mp hb with hb | hb
      · rw [hb]
        rcases cmdKeyLe_total x.1 z.1 with hx | hx
        · exact absurd hx h
        · exact hx
      · exact hz b hb

theorem pairwise_pySorted (l : List (Option Int × String)) :
    (pySorted l).Pairwise (fun p q => cmdKeyLe p.1 q.1 = true) := by
  induction l with
  | nil => simp [pySorted]
  | cons x xs ih => exact pairwise_insertPart ih

theorem filter_isNone_insertPart (x : Option Int × String)
    (l : List (Option Int × String)) :
    (insertPart x l).filter (fun p => p.1.isNone)
      = (if x.1.isNone then [x] else []) ++ l.filter (fun p => p.1.isNone) := by
  induction l with
  | nil => by_cases hx : x.1.isNone <;> simp [insertPart, hx]
  | cons z zs ih =>
    by_cases h : cmdKeyLe x.1 z.1 = true
    · rw [insertPart, if_pos h]
      by_cases hx : x.1.isNone <;> simp [List.filter_cons, hx]
    · rw [insertPart, if_neg h]
      rw [List.filter_cons, List.filter_cons]
      by_cases hz : z.1.isNone
      · have hx : x.1.isNone = false := by
          cases hxx : x.1 <;> cases hzz : z.1 <;>
            simp_all [cmdKeyLe, Option.isNone]
        simp only [hz, if_pos, ih, hx]
        simp
      · simp only [hz, ih]
        simp [hz]

theorem filter_isNone_pySorted (l : List (Option Int × String)) :
    (pySorted l).filter (fun p => p.1.isNone) = l.filter (fun p => p.1.isNone) := by
  induction l with
  | nil => rfl
  | cons x xs ih =>
    rw [pySorted, filter_isNone_insertPart, ih, List.filter_cons]
    by_cases hx : x.1.isNone <;> simp [hx]

theorem insertPart_eq_cons {x : Option Int × String} {l : List (Option Int × String)}
    (h : ∀ y ∈ l, cmdKeyLe x.1 y.1 = true) : insertPart x l = x :: l := by
  cases l with
  | nil => rfl
  | cons z zs => rw [insertPart, if_pos (h z (by simp))]

theorem mem_pySorted {y : Option Int × String} {l : List (Option Int × String)} :
    y ∈ pySorted l ↔ y ∈ l := by
  induction l with
  | nil => simp [pySorted]
  | cons x xs ih => simp [pySorted, mem_insertPart, ih]

/-! ## Claim C1 -/

/-- C1: in the ordered `(position, token)` list produced by the sort of
`__format_command` (lines 133-135), tokens with an explicit position appear
in non-decreasing position order, every token without a position appears
after all positioned tokens, and the original relative order among
unpositioned tokens is preserved (the sort is stable on the key
`(position is absent, position)`). -/
theorem C1_stable_position_sort (g : WdlTaskGenerator) :
    (ordered_pairs g).Pairwise
      (fun p q => (∀ a b : Int, p.1 = some a → q.1 = some b → a ≤ b)
        ∧ (p.1 = none → q.1 = none))
    ∧ (ordered_pairs g).filter (fun p => p.1.isNone)
        = (collectPairs g).filter (fun p => p.1.isNone) := by
  constructor
  · refine (pairwise_pySorted (collectPairs g)).imp ?_
    intro p q hpq
    constructor
    · intro a b ha hb
      rw [ha, hb] at hpq
      simpa [cmdKeyLe] using hpq
    · intro hp
      cases hq : q.1 with
      | none => rfl
      | some b =>
        rw [hp, hq] at hpq
        simp [cmdKeyLe] at hpq
  · exact filter_isNone_pySorted _

/-! ## Claim C2 -/

/-- The literal task of claim C2: `baseCommand="tool"`, one argument
`(position=0, prefix absent, value="run")`, one input
`(name="infile", File, position=1, prefix="-i", separate, required)`. -/
def gC2 : WdlTaskGenerator :=
  { name := "t", inputs := [], outputs := [], requirements := [], stdin := none
    structs := [], stdout := none
    command :=
      { baseCommand := "tool"
        arguments :=
          [{ position := some 0, pfx := none, separate := false, value := some "run" }]
        inputs :=
          [{ name := "infile", variable_type := "File", position := some 1
             pfx := some "-i", separate := true, is_required := true
             default := none, separator := "" }] } }

/-- C2 counterexample: the literal result string of the claim indents the
continuation lines by four spaces, but the synthesized command is not that
string. -/
theorem C2_roundtrip_counterexample :
    format_command gC2 ≠ "tool \\\n    run \\\n    -i $\x7binfile\x7d" := by
  decide

/-- C2 amended: the synthesized command for the literal case is the three
tokens joined by a space, a backslash, a newline and eight spaces (the
command-block indentation of the generator). -/
theorem C2_roundtrip_amended :
    format_command gC2 = "tool \\\n        run \\\n        -i $\x7binfile\x7d" := by
  decide

/-! ## Claim C3 -/

/-- A command with an explicitly positioned argument, used to refute the
claim that the base command sorts after all positioned tokens. -/
def gC3 : WdlTaskGenerator :=
  { name := "t", inputs := [], outputs := [], requirements := [], stdin := none
    structs := [], stdout := none
    command :=
      { baseCommand := "tool"
        arguments :=
          [{ position := some 1, pfx := none, separate := false, value := some "arg" }]
        inputs := [] } }

/-- C3 counterexample: the token list is seeded with the base command at
the integer position `0`, not at an absent position, so with an argument at
position `1` the base command sorts first, not after the positioned token. -/
theorem C3_seed_counterexample :
    (collectPairs gC3).head? = some (some 0, "tool")
    ∧ ordered_pairs gC3 = [(some 0, "tool"), (some 1, "arg")]
    ∧ (ordered_pairs gC3).getLast? ≠ some (some 0, "tool") := by
  decide

/-- `true` when a collected position is absent or a non-negative integer. -/
def nonnegOrAbsent : Option Int → Bool
  | none => true
  | some n => 0 ≤ n

/-- C3 amended: the ordered token list is seeded with the base command at
the explicit position `0` (the Python literal `[0]`), so under the
`(position is absent, position)` ordering the base command sorts before
every unpositioned token and before every token with a non-negative
position: whenever all other collected positions are absent or
non-negative, the base command is the first token after sorting. -/
theorem C3_seed_amended (g : WdlTaskGenerator)
    (h : ∀ p ∈ (collectPairs g).tail, nonnegOrAbsent p.1 = true) :
    (collectPairs g).head? = some (some 0, g.command.baseCommand)
    ∧ (ordered_pairs g).head? = some (some 0, g.command.baseCommand) := by
  constructor
  · rfl
  · have hx : ∀ y ∈ pySorted ((collectPairs g).tail),
        cmdKeyLe (some 0) y.1 = true := by
      intro y hy
      have hmem := h y (mem_pySorted.mp hy)
      cases hy1 : y.1 with
      | none => simp [cmdKeyLe]
      | some n =>
        rw [hy1] at hmem
        simpa [cmdKeyLe, nonnegOrAbsent] using hmem
    have hrw : ordered_pairs g
        = insertPart (some 0, g.command.baseCommand)
            (pySorted ((collectPairs g).tail)) := rfl
    rw [hrw, insertPart_eq_cons hx]
    rfl

/-- Witness for C3 amended at the concrete command `gC3`. -/
theorem C3_seed_amended_witness :
    (collectPairs gC3).head? = some (some 0, gC3.command.baseCommand)
    ∧ (ordered_pairs gC3).head? = some (some 0, gC3.command.baseCommand) :=
  C3_seed_amended gC3 (by decide)

/-! ## Claim C4 -/

/-- C4: a boolean `CommandInput` whose default is the false literal or whose
prefix is absent is skipped by `__format_command` (lines 83-89): it renders
no token and records no position, whatever its position, and removing it
from the input list leaves the collected `(position, token)` pairs
unchanged. -/
theorem C4_boolean_elision (g : WdlTaskGenerator) (ci : CommandInput)
    (pre post : List CommandInput)
    (h1 : ci.variable_type = "Boolean")
    (h2 : ci.default = some "False" ∨ ci.pfx = none) :
    renderInput g.structs g.stdout ci = none
    ∧ collectPairs { g with command := { g.command with inputs := pre ++ ci :: post } }
        = collectPairs { g with command := { g.command with inputs := pre ++ post } } := by
  have hr : renderInput g.structs g.stdout ci = none := by
    unfold renderInput
    rw [if_pos ⟨h1, h2⟩]
  refine ⟨hr, ?_⟩
  simp [collectPairs, List.filterMap_append, List.filterMap_cons, hr]

/-- A boolean flag input with the false-literal default and an explicit
position, for the C4 witness. -/
def ciC4 : CommandInput :=
  { name := "flag", variable_type := "Boolean", position := some 5
    pfx := some "-f", separate := true, is_required := false
    default := some "False", separator := "" }

/-- The surrounding generator for the C4 witness. -/
def gC4 : WdlTaskGenerator :=
  { name := "t", inputs := [], outputs := [], requirements := [], stdin := none
    structs := [], stdout := none
    command := { baseCommand := "tool", arguments := [], inputs := [ciC4] } }

/-- Witness for C4 at a concrete boolean flag input. -/
theorem C4_boolean_elision_witness :
    renderInput gC4.structs gC4.stdout ciC4 = none
    ∧ collectPairs { gC4 with command := { gC4.command with inputs := [] ++ ciC4 :: [] } }
        = collectPairs { gC4 with command := { gC4.command with inputs := [] ++ [] } } :=
  C4_boolean_elision gC4 ciC4 [] [] (by decide) (Or.inl (by decide))

/-! ## Claim C5 -/

/-- A struct-typed input named as the captured stdout. -/
def ciC5 : CommandInput :=
  { name := "out", variable_type := "Rec", position := none
    pfx := some "-o", separate := true, is_required := true
    default := some "d", separator := "" }

/-- Generator whose stdout names the struct-typed input `ciC5`. -/
def gC5 : WdlTaskGenerator :=
  { name := "t", inputs := [], outputs := [], requirements := [], stdin := none
    structs := [{ name := "Rec", fields := [] }], stdout := some "out"
    command := { baseCommand := "tool", arguments := [], inputs := [ciC5] } }

/-- C5 counterexample: the struct-substitution branch (line 92) precedes
the stdout exclusion (line 97), so a struct-typed input named as stdout
still contributes an inline `write_struct` token — contradicting the claim
that the stdout-named input contributes no inline token for any
`variable_type`. -/
theorem C5_stdout_counterexample :
    renderInput gC5.structs gC5.stdout ciC5
        = some (none, "$\x7bwrite_struct(out)\x7d")
    ∧ renderInput gC5.structs gC5.stdout ciC5 ≠ none
    ∧ "$\x7bwrite_struct(out)\x7d" ∈ final_command_parts gC5 := by
  decide

/-- C5 amended: a `CommandInput` named as `stdout` whose (array-stripped)
type does not name a known struct contributes no inline token; when
`stdout` is set the token list ends with the redirection token, and when
`stdout` is absent no redirection token is appended. -/
theorem C5_stdout_amended (g : WdlTaskGenerator) (s : String) :
    (g.stdout = some s → ∀ ci : CommandInput, ci.name = s →
      is_struct g.structs ci.variable_type = false →
      renderInput g.structs g.stdout ci = none)
    ∧ (g.stdout = some s →
        (final_command_parts g).getLast? = some ("> $\x7b" ++ s ++ "\x7d"))
    ∧ (g.stdout = none →
        final_command_parts g = envInsert g.requirements (ordered_command_parts g)) := by
  refine ⟨?_, ?_, ?_⟩
  · intro hs ci hname hstruct
    unfold renderInput
    by_cases hb : ci.variable_type = "Boolean"
        ∧ (ci.default = some "False" ∨ ci.pfx = none)
    · rw [if_pos hb]
    · rw [if_neg hb]
      simp [hstruct, hs, hname]
  · intro hs
    simp [final_command_parts, hs]
  · intro hs
    simp [final_command_parts, hs]

/-- A generator with a set stdout and a plain (non-struct) input named as
stdout, for the C5 witness. -/
def gW5 : WdlTaskGenerator :=
  { name := "t", inputs := [], outputs := [], requirements := [], stdin := none
    structs := [], stdout := some "o"
    command :=
      { baseCommand := "tool", arguments := []
        inputs :=
          [{ name := "o", variable_type := "File", position := none
             pfx := some "-o", separate := true, is_required := true
             default := none, separator := "" }] } }

/-- A generator without stdout, for the C5 witness. -/
def gW5n : WdlTaskGenerator :=
  { name := "t", inputs := [], outputs := [], requirements := [], stdin := none
    structs := [], stdout := none
    command := { baseCommand := "tool", arguments := [], inputs := [] } }

/-- Witness for C5 amended at concrete generators with and without stdout. -/
theorem C5_stdout_amended_witness :
    renderInput gW5.structs gW5.stdout
        { name := "o", variable_type := "File", position := none
          pfx := some "-o", separate := true, is_required := true
          default := none, separator := "" } = none
    ∧ (final_command_parts gW5).getLast? = some ("> $\x7bo\x7d")
    ∧ final_command_parts gW5n
        = envInsert gW5n.requirements (ordered_command_parts gW5n) :=
  ⟨(C5_stdout_amended gW5 "o").1 rfl _ rfl (by decide),
   (C5_stdout_amended gW5 "o").2.1 rfl,
   (C5_stdout_amended gW5n "o").2.2 rfl⟩

/-! ## Claim C6 -/

/-- C6: the placeholder shapes of the standard case (lines 101-131) for a
non-struct, non-boolean, non-stdout input named `x` with no default and a
non-array type: prefix `-f` separate and required gives `-f $\x7bx\x7d`,
the same but optional gives `$\x7b-f + x\x7d`, and no prefix gives
`$\x7bx\x7d`. -/
theorem C6_placeholder_shapes (structs : List StructDefinition)
    (stdout : Option String) (vt : String) (pos : Option Int) (sepr : String)
    (h1 : vt ≠ "Boolean")
    (h2 : is_struct structs vt = false)
    (h3 : stdout ≠ some "x")
    (h4 : strStartsWith "Array" vt = false) :
    renderInput structs stdout
        { name := "x", variable_type := vt, position := pos, pfx := some "-f"
          separate := true, is_required := true, default := none, separator := sepr }
      = some (pos, "-f $\x7bx\x7d")
    ∧ renderInput structs stdout
        { name := "x", variable_type := vt, position := pos, pfx := some "-f"
          separate := true, is_required := false, default := none, separator := sepr }
      = some (pos, "$\x7b-f + x\x7d")
    ∧ renderInput structs stdout
        { name := "x", variable_type := vt, position := pos, pfx := none
          separate := true, is_required := true, default := none, separator := sepr }
      = some (pos, "$\x7bx\x7d") := by
  refine ⟨?_, ?_, ?_⟩ <;>
  · unfold renderInput
    simp [h1, h2, h3, h4]

/-- Witness for C6 at concrete surroundings. -/
theorem C6_placeholder_shapes_witness :
    renderInput [] none
        { name := "x", variable_type := "File", position := none, pfx := some "-f"
          separate := true, is_required := true, default := none, separator := "" }
      = some (none, "-f $\x7bx\x7d")
    ∧ renderInput [] none
        { name := "x", variable_type := "File", position := none, pfx := some "-f"
          separate := true, is_required := false, default := none, separator := "" }
      = some (none, "$\x7b-f + x\x7d")
    ∧ renderInput [] none
        { name := "x", variable_type := "File", position := none, pfx := none
          separate := true, is_required := true, default := none, separator := "" }
      = some (none, "$\x7bx\x7d") :=
  C6_placeholder_shapes [] none "File" none ""
    (by decide) (by decide) (by decide) (by decide)

/-! ## Claim C7 -/

/-- A step with bindings, a declared scatter, and a pre-scatter mapping. -/
def stepC7 : WorkflowStep :=
  { task_id := "t", step_type := "task", task_definition := none
    inputs := [{ input_id := "t.x", value := "v" }]
    scatter := [("i", "arr")]
    prescatter := [("recs", [("a", "f", "File")])] }

/-- C7 counterexample: the rendered step text is not the pre-scatter block
followed by the scatter-wrapped call; it does not even start with the
pre-scatter block — it starts with the declared scatter header, because the
pre-scatter text is part of the body handed to `_format_scatter` (line
261) and is therefore nested inside the declared scatter block. -/
theorem C7_prescatter_counterexample :
    render_call stepC7
        ≠ format_prescatter stepC7.prescatter
          ++ format_scatter stepC7.scatter (call_block stepC7)
    ∧ format_prescatter stepC7.prescatter ≠ ""
    ∧ strStartsWith (format_prescatter stepC7.prescatter) (render_call stepC7) = false
    ∧ strStartsWith "\n    scatter (i in arr)" (render_call stepC7) = true := by
  decide

/-- C7 amended: for a step with bindings, the pre-scatter unpack text is
prepended to the call block and the combined text is then wrapped by the
declared scatter, so the unpack block ends up nested inside the declared
scatter block (indented, after the scatter header and before the call),
not textually before it. -/
theorem C7_prescatter_amended (step : WorkflowStep) (h : step.inputs ≠ []) :
    render_call step
      = format_scatter step.scatter
          (format_prescatter step.prescatter ++ call_block step)
    ∧ (step.scatter ≠ [] →
        render_call step
          = "\n    scatter ("
            ++ "\n             ".intercalate
              (step.scatter.map (fun xy => xy.1 ++ " in " ++ xy.2))
            ++ ") \x7b\n"
            ++ "\n".intercalate
              ((pySplit '\n'
                  (format_prescatter step.prescatter ++ call_block step)).map
                (fun l => "  " ++ l))
            ++ "\n    \x7d\n") := by
  have hne : step.inputs.isEmpty = false := by
    cases hi : step.inputs <;> simp_all
  constructor
  · simp [render_call, hne]
  · intro hs
    have hsc : step.scatter.isEmpty = false := by
      cases hx : step.scatter <;> simp_all
    simp [render_call, hne, format_scatter, hsc]

/-- Witness for C7 amended at the concrete step `stepC7`. -/
theorem C7_prescatter_amended_witness :
    render_call stepC7
      = format_scatter stepC7.scatter
          (format_prescatter stepC7.prescatter ++ call_block stepC7) :=
  (C7_prescatter_amended stepC7 (by decide)).1

/-! ## Claim C8 -/

/-- Stated from the wording of the claim, for comparison with the code: the
input_id of the binding with only a leading literal `task_id.` prefix removed,
followed by `=` and the value. -/
def claimC8_line (tid : String) (inp : StepInput) : String :=
  (if strStartsWith (tid ++ ".") inp.input_id then
    String.mk (inp.input_id.toList.drop (tid.toList.length + 1))
  else inp.input_id) ++ "=" ++ inp.value

/-- C8 counterexample: `re.sub` removes every occurrence of the pattern
(not only a leading one), and a dot inside `task_id` acts as a regex
wildcard, so the rendered binding differs from the claimed
leading-literal-prefix stripping on both counts. -/
theorem C8_binding_counterexample :
    format_binding "t" 0 { input_id := "t.x.t.y", value := "v" } = "x.y=v"
    ∧ claimC8_line "t" { input_id := "t.x.t.y", value := "v" } = "x.t.y=v"
    ∧ format_binding "t" 0 { input_id := "t.x.t.y", value := "v" }
        ≠ claimC8_line "t" { input_id := "t.x.t.y", value := "v" }
    ∧ format_binding "a.b" 0 { input_id := "axb.z", value := "v" } = "z=v"
    ∧ claimC8_line "a.b" { input_id := "axb.z", value := "v" } = "axb.z=v"
    ∧ format_binding "a.b" 0 { input_id := "axb.z", value := "v" }
        ≠ claimC8_line "a.b" { input_id := "axb.z", value := "v" } := by
  decide

/-- C8 amended: each binding line is the input_id of the binding with every
leftmost non-overlapping match of the regex `task_id` + dot removed (a dot
inside `task_id` matching any single non-newline character), followed by
`=` and the value; the pattern matches the literal `task_id.` wherever it
occurs, leading or not. -/
theorem C8_binding_amended :
    (∀ (tid st : String) (td : Option Task) (i1 i2 : StepInput)
      (sc : List (String × String))
      (ps : List (String × List (String × String × String))),
      call_block
          { task_id := tid, step_type := st, task_definition := td
            inputs := [i1, i2], scatter := sc, prescatter := ps }
        = "\n    call " ++ tid ++ " \x7b\n        input: "
          ++ (String.mk (reSubTaskId tid.toList i1.input_id.toList)
            ++ "=" ++ i1.value)
          ++ ", \n"
          ++ ("          "
            ++ String.mk (reSubTaskId tid.toList i2.input_id.toList)
            ++ "=" ++ i2.value)
          ++ "\n    \x7d\n")
    ∧ (∀ (tid rest : List Char),
        matchTaskIdPat tid (tid ++ '.' :: rest) = some rest)
    ∧ (∀ (ps cs : List Char) (c : Char), c ≠ '\n' →
        matchTaskIdPat ('.' :: ps) (c :: cs) = matchTaskIdPat ps cs) := by
  refine ⟨?_, ?_, ?_⟩
  · intro tid st td i1 i2 sc ps
    have he : ([i1, i2].enum) = [(0, i1), (1, i2)] := rfl
    simp only [call_block, he, List.map_cons, List.map_nil, format_binding]
    have hj : ∀ a b : String, ", \n".intercalate [a, b] = a ++ ", \n" ++ b :=
      fun a b => rfl
    rw [hj]
    simp [String.append_assoc]
  · intro tid rest
    induction tid with
    | nil => simp [matchTaskIdPat]
    | cons p pstl ih =>
      rw [List.cons_append, matchTaskIdPat]
      simp [ih]
  · intro ps cs c hc
    rw [matchTaskIdPat, if_pos (Or.inl ⟨rfl, hc⟩)]

/-- Witness for C8 amended at concrete bindings. -/
theorem C8_binding_amended_witness :
    call_block
        { task_id := "t", step_type := "task", task_definition := none
          inputs := [{ input_id := "t.x", value := "v" },
                     { input_id := "t.y", value := "w" }]
          scatter := [], prescatter := [] }
      = "\n    call " ++ "t" ++ " \x7b\n        input: "
        ++ (String.mk (reSubTaskId "t".toList "t.x".toList) ++ "=" ++ "v")
        ++ ", \n"
        ++ ("          " ++ String.mk (reSubTaskId "t".toList "t.y".toList)
          ++ "=" ++ "w")
        ++ "\n    \x7d\n"
    ∧ matchTaskIdPat "t".toList ("t".toList ++ '.' :: "x".toList)
        = some "x".toList
    ∧ matchTaskIdPat ('.' :: []) ('a' :: []) = matchTaskIdPat [] [] :=
  ⟨C8_binding_amended.1 "t" "task" none
      { input_id := "t.x", value := "v" } { input_id := "t.y", value := "w" } [] [],
   C8_binding_amended.2.1 "t".toList "x".toList,
   C8_binding_amended.2.2 [] [] 'a' (by decide)⟩

/-! ## Claim C9 -/

/-- C9: a step without input bindings renders only the bare call (wrapped
in the declared scatter when present); the pre-scatter mapping is ignored
on this branch, whatever it contains. -/
theorem C9_bare_call (step : WorkflowStep) (h : step.inputs = []) :
    render_call step = format_scatter step.scatter ("call " ++ step.task_id)
    ∧ ∀ p, render_call { step with prescatter := p } = render_call step := by
  have hne : step.inputs.isEmpty = true := by simp [h]
  constructor
  · simp [render_call, hne]
  · intro p
    simp [render_call, hne]

/-- A bindingless step with a scatter and a non-empty prescatter mapping. -/
def stepW9 : WorkflowStep :=
  { task_id := "t9", step_type := "task", task_definition := none
    inputs := [], scatter := [("i", "arr")]
    prescatter := [("r", [("a", "f", "T")])] }

/-- Witness for C9 at the concrete step `stepW9`. -/
theorem C9_bare_call_witness :
    render_call stepW9 = format_scatter stepW9.scatter ("call " ++ stepW9.task_id)
    ∧ render_call { stepW9 with prescatter := [] } = render_call stepW9 :=
  ⟨(C9_bare_call stepW9 rfl).1, (C9_bare_call stepW9 rfl).2 []⟩

/-! ## Claim C10 -/

/-- The import lines a single step appends to `imported_wfs`. -/
def import_contrib (step : WorkflowStep) : List String :=
  match step.task_definition with
  | none => []
  | some _ =>
    if step.step_type = "task" then []
    else
      let base := (pySplit '.' step.task_id).getLastD ""
      ["import \x22" ++ base ++ ".wdl\x22 as " ++ base]

/-- The nested task texts a single step appends to `prepped_tasks`. -/
def task_contrib (structs : List StructDefinition) (step : WorkflowStep) :
    List String :=
  match step.task_definition with
  | none => []
  | some td =>
    if step.step_type = "task" then
      [generate_wdl (WdlTaskGenerator.ofTask td structs)]
    else []

theorem foldl_process_step (l : List WorkflowStep) (g : WdlWorkflowGenerator)
    (ts : List String) :
    l.foldl process_step (g, ts)
      = ({ g with
            task_ids := g.task_ids ++ l.map (fun s => s.task_id)
            imported_wfs := g.imported_wfs ++ l.flatMap import_contrib
            prepped_tasks :=
              g.prepped_tasks ++ l.flatMap (task_contrib g.structs) },
         ts ++ l.map render_call) := by
  induction l generalizing g ts with
  | nil => simp
  | cons s l ih =>
    rw [List.foldl_cons]
    have hstep : process_step (g, ts) s
        = ({ g with
              task_ids := g.task_ids ++ [s.task_id]
              imported_wfs := g.imported_wfs ++ import_contrib s
              prepped_tasks := g.prepped_tasks ++ task_contrib g.structs s },
           ts ++ [render_call s]) := by
      cases htd : s.task_definition with
      | none => simp [process_step, import_contrib, task_contrib, htd]
      | some td =>
        by_cases hst : s.step_type = "task" <;>
          simp [process_step, import_contrib, task_contrib, htd, hst]
    rw [hstep, ih]
    simp [List.append_assoc]

/-- The first generation pass on a fresh instance. -/
def gen1 (wf : Workflow) : String × WdlWorkflowGenerator :=
  wf_generate_wdl (WdlWorkflowGenerator.ofWorkflow wf)

/-- The second generation pass on the same (already mutated) instance. -/
def gen2 (wf : Workflow) : String × WdlWorkflowGenerator :=
  wf_generate_wdl (gen1 wf).2

/-- A workflow with one imported sub-workflow step, demonstrating that the
emitted text differs between the first and the second pass. -/
def wfC10 : Workflow :=
  { name := "w", inputs := [], outputs := [], structs := []
    steps :=
      [{ task_id := "s", step_type := "workflow"
         task_definition := some
           { name := "s", inputs := []
             command := { baseCommand := "x", arguments := [], inputs := [] }
             outputs := [], requirements := [], stdin := none, stdout := none }
         inputs := [], scatter := [], prescatter := [] }]
    subworkflows := [] }

/-- C10: the accumulators for consumed task ids, import lines, and nested
task texts are instance state appended to on every `__format_steps` call,
so a second `generate_wdl` invocation on the same instance carries every
one of the import lines and nested task texts twice (and is therefore not
idempotent, as the concrete run on `wfC10` shows). -/
theorem C10_generate_twice_duplicates (wf : Workflow) :
    (gen1 wf).2.imported_wfs
        = (wf.steps ++ wf.subworkflows).flatMap import_contrib
    ∧ (gen2 wf).2.imported_wfs = (gen1 wf).2.imported_wfs ++ (gen1 wf).2.imported_wfs
    ∧ (gen2 wf).2.prepped_tasks = (gen1 wf).2.prepped_tasks ++ (gen1 wf).2.prepped_tasks
    ∧ (gen2 wf).2.task_ids = (gen1 wf).2.task_ids ++ (gen1 wf).2.task_ids
    ∧ (∀ line : String,
        ((gen2 wf).2.imported_wfs).count line
          = 2 * ((gen1 wf).2.imported_wfs).count line)
    ∧ (∀ t : String,
        ((gen2 wf).2.prepped_tasks).count t
          = 2 * ((gen1 wf).2.prepped_tasks).count t)
    ∧ (gen2 wfC10).1 ≠ (gen1 wfC10).1 := by
  have h1 : (gen1 wf).2
      = { WdlWorkflowGenerator.ofWorkflow wf with
          task_ids := (wf.steps ++ wf.subworkflows).map (fun s => s.task_id)
          imported_wfs := (wf.steps ++ wf.subworkflows).flatMap import_contrib
          prepped_tasks :=
            (wf.steps ++ wf.subworkflows).flatMap (task_contrib wf.structs) } := by
    simp [gen1, wf_generate_wdl, format_steps, foldl_process_step]
    simp [WdlWorkflowGenerator.ofWorkflow]
  have h2 : (gen2 wf).2
      = { WdlWorkflowGenerator.ofWorkflow wf with
          task_ids := (wf.steps ++ wf.subworkflows).map (fun s => s.task_id)
            ++ (wf.steps ++ wf.subworkflows).map (fun s => s.task_id)
          imported_wfs := (wf.steps ++ wf.subworkflows).flatMap import_contrib
            ++ (wf.steps ++ wf.subworkflows).flatMap import_contrib
          prepped_tasks :=
            (wf.steps ++ wf.subworkflows).flatMap (task_contrib wf.structs)
            ++ (wf.steps ++ wf.subworkflows).flatMap (task_contrib wf.structs) } := by
    rw [gen2, h1]
    simp [wf_generate_wdl, format_steps, foldl_process_step]
    simp [WdlWorkflowGenerator.ofWorkflow]
  refine ⟨?_, ?_, ?_, ?_, ?_, ?_, ?_⟩
  · rw [h1]
  · rw [h1, h2]
  · rw [h1, h2]
  · rw [h1, h2]
  · intro line
    rw [h1, h2]
    simp [List.count_append]
    omega
  · intro t
    rw [h1, h2]
    simp [List.count_append]
    omega
  · decide

end Cwl2Wdl
